import Mathlib

/-!
Shallow embedding of the gesture-driven ornament display:
the gesture classifier (src/gestureService.ts), the mode state machine
(App component), the geometry generator, focus selector and per-frame
animation driver (src/TreeScene.tsx).

Conventions of the embedding:
* JavaScript numbers are modelled as real numbers (`ℝ`).
* A JavaScript array is a `List`; `arr[i]` on an index that may be out of
  range is `List.get? i` (`undefined` becomes `none`), and a computation
  that would throw a `TypeError` by dereferencing `undefined` is modelled
  as returning `none` in the `Option` monad.
* `Math.random()` results are supplied by an explicit stream
  `rng : ℕ → ℝ`: the k-th call of `Math.random()` during one generation
  returns `rng k`.  The generator consumes, in source order, 3 values per
  photo (the scatter position) and 10 values per decoration (radius draw,
  sub-kind draw, colour draw, 3 scatter coordinates, 3 Euler angles,
  scale draw).
* `THREE.Vector3` is the structure `Vec3`; the in-place mutation
  `targetPos.y += …` of the scatter branch is made explicit by returning
  the updated `OrnamentData` record from the per-frame target computation.
-/

noncomputable section

/-- 3D vector, standing for `THREE.Vector3` (also used for Euler angles). -/
@[ext] structure Vec3 where
  x : ℝ
  y : ℝ
  z : ℝ

/-- The all-zero vector. -/
def vzero : Vec3 := ⟨0, 0, 0⟩

instance : Inhabited Vec3 := ⟨vzero⟩

/-- Euclidean distance of two 3D points, the `dist` helper of
`classifyGesture`: `Math.sqrt((dx)^2 + (dy)^2 + (dz)^2)`. -/
def dist3 (p q : Vec3) : ℝ :=
  Real.sqrt ((p.x - q.x) ^ 2 + (p.y - q.y) ^ 2 + (p.z - q.z) ^ 2)

/-- `v.lerp w a` is `THREE.Vector3.lerp`: each component moves the
fraction `a` of the way toward `w`. -/
def Vec3.lerp (p q : Vec3) (a : ℝ) : Vec3 :=
  ⟨p.x + (q.x - p.x) * a, p.y + (q.y - p.y) * a, p.z + (q.z - p.z) * a⟩

/-- Gesture labels produced by `classifyGesture`. -/
inductive Gesture where
  | NONE
  | OPEN_PALM
  | CLOSED_FIST
  | PINCH
deriving DecidableEq

/-- `calculateHandRotation` (src/gestureService.ts): returns `0` for an
empty hand list, otherwise reads landmarks 17 (pinky MCP) and 2 (thumb
MCP) of the first hand and clamps `(p1.y - p2.y) * 5` to `[-1, 1]`.
Reading a missing landmark throws (`none`). -/
def calculateHandRotation (landmarks : List (List Vec3)) : Option ℝ :=
  if landmarks.length = 0 then some 0 else
    match landmarks.head? with
    | none => some 0
    | some lm =>
      match lm.get? 17, lm.get? 2 with
      | some p1, some p2 => some (max (-1) (min 1 ((p1.y - p2.y) * 5)))
      | _, _ => none

/-- The fold counter of `classifyGesture`: for each of the four non-thumb
fingers, 1 if the tip is closer to the wrist than the MCP knuckle is. -/
def foldedCount (wrist t1 t2 t3 t4 m1 m2 m3 m4 : Vec3) : ℕ :=
  (if dist3 t1 wrist < dist3 m1 wrist then 1 else 0) +
  (if dist3 t2 wrist < dist3 m2 wrist then 1 else 0) +
  (if dist3 t3 wrist < dist3 m3 wrist then 1 else 0) +
  (if dist3 t4 wrist < dist3 m4 wrist then 1 else 0)

/-- `classifyGesture` (src/gestureService.ts).  The rotation is computed
first; an empty landmark list yields `(NONE, 0)`; then pinch (thumb tip 4
vs index tip 8 below 0.05) wins, then at least 3 folded fingers gives
`CLOSED_FIST`, else `OPEN_PALM`.  Any access to a missing landmark is a
thrown `TypeError`, i.e. `none`. -/
def classifyGesture (landmarks : List (List Vec3)) : Option (Gesture × ℝ) :=
  match calculateHandRotation landmarks with
  | none => none
  | some rotation =>
    if landmarks.length = 0 then some (Gesture.NONE, 0) else
      match landmarks.head? with
      | none => some (Gesture.NONE, 0)
      | some lm =>
        match lm.get? 4, lm.get? 8 with
        | some thumbTip, some indexTip =>
          if dist3 thumbTip indexTip < 0.05 then some (Gesture.PINCH, rotation)
          else
            match lm.get? 0, lm.get? 8, lm.get? 12, lm.get? 16, lm.get? 20,
                  lm.get? 5, lm.get? 9, lm.get? 13, lm.get? 17 with
            | some wrist, some i1, some i2, some i3, some i4,
              some k1, some k2, some k3, some k4 =>
              if 3 ≤ foldedCount wrist i1 i2 i3 i4 k1 k2 k3 k4 then
                some (Gesture.CLOSED_FIST, rotation)
              else some (Gesture.OPEN_PALM, rotation)
            | _, _, _, _, _, _, _, _, _ => none
        | _, _ => none

/-- Pinch distance of a full hand, written with total accesses
(`getD … vzero`); agrees with the classifier's reads when at least 21
landmarks are present. -/
def pinchDistance (lm : List Vec3) : ℝ :=
  dist3 (lm.getD 4 vzero) (lm.getD 8 vzero)

/-- Fold count of a full hand via total accesses. -/
def foldedCountOf (lm : List Vec3) : ℕ :=
  foldedCount (lm.getD 0 vzero) (lm.getD 8 vzero) (lm.getD 12 vzero)
    (lm.getD 16 vzero) (lm.getD 20 vzero) (lm.getD 5 vzero) (lm.getD 9 vzero)
    (lm.getD 13 vzero) (lm.getD 17 vzero)

/-- Hand tilt of a full hand via total accesses. -/
def handTilt (lm : List Vec3) : ℝ :=
  max (-1) (min 1 (((lm.getD 17 vzero).y - (lm.getD 2 vzero).y) * 5))

lemma get?_eq_some_getD (l : List Vec3) (n : ℕ) (h : n < l.length) :
    l.get? n = some (l.getD n vzero) := by
  rw [List.getD_eq_getElem?_getD, List.get?_eq_getElem?,
    List.getElem?_eq_getElem h]
  rfl

/-- On a hand with at least 18 landmarks the rotation computation is
total and equals the clamped tilt. -/
lemma calculateHandRotation_full (lm : List Vec3) (rest : List (List Vec3))
    (h : 18 ≤ lm.length) :
    calculateHandRotation (lm :: rest) = some (handTilt lm) := by
  have e2 := get?_eq_some_getD lm 2 (by omega)
  have e17 := get?_eq_some_getD lm 17 (by omega)
  simp only [calculateHandRotation, List.length_cons, List.head?_cons,
    e2, e17, handTilt]
  simp

/-- On a hand with at least 21 landmarks the classifier is total and
reduces to: pinch threshold first, then fold count, with the clamped
tilt. -/
lemma classifyGesture_full (lm : List Vec3) (rest : List (List Vec3))
    (h : 21 ≤ lm.length) :
    classifyGesture (lm :: rest) =
      some (if pinchDistance lm < 0.05 then Gesture.PINCH
            else if 3 ≤ foldedCountOf lm then Gesture.CLOSED_FIST
            else Gesture.OPEN_PALM, handTilt lm) := by
  have e0 := get?_eq_some_getD lm 0 (by omega)
  have e4 := get?_eq_some_getD lm 4 (by omega)
  have e5 := get?_eq_some_getD lm 5 (by omega)
  have e8 := get?_eq_some_getD lm 8 (by omega)
  have e9 := get?_eq_some_getD lm 9 (by omega)
  have e12 := get?_eq_some_getD lm 12 (by omega)
  have e13 := get?_eq_some_getD lm 13 (by omega)
  have e16 := get?_eq_some_getD lm 16 (by omega)
  have e20 := get?_eq_some_getD lm 20 (by omega)
  rw [classifyGesture, calculateHandRotation_full lm rest (by omega)]
  simp only [List.length_cons, List.head?_cons, e0, e4, e5, e8, e9, e12,
    e13, e16, e20, get?_eq_some_getD lm 17 (by omega),
    pinchDistance, foldedCountOf]
  rw [if_neg (Nat.succ_ne_zero rest.length)]
  split
  · rfl
  · split <;> rfl

/-- Display modes (`AppMode` in src/types.ts). -/
inductive AppMode where
  | TREE
  | SCATTER
  | FOCUS
deriving DecidableEq

/-- Initial mode of the App component: `useState<AppMode>(AppMode.TREE)`. -/
def appModeInit : AppMode := AppMode.TREE

/-- The mode transition of `handleGestureResult` (App component):
`CLOSED_FIST → TREE`, `OPEN_PALM → SCATTER`, `PINCH → FOCUS`, and any
other classifier result leaves the mode unchanged. -/
def handleGesture (g : Gesture) (mode : AppMode) : AppMode :=
  match g with
  | Gesture.CLOSED_FIST => AppMode.TREE
  | Gesture.OPEN_PALM => AppMode.SCATTER
  | Gesture.PINCH => AppMode.FOCUS
  | Gesture.NONE => mode

/-- Folding a stream of classifier results through the state machine,
starting from the initial mode. -/
def runGestures (gs : List Gesture) : AppMode :=
  gs.foldl (fun m g => handleGesture g m) appModeInit

/-- Ornament kinds (`OrnamentType` in src/types.ts). -/
inductive OrnamentType where
  | GEM
  | PEARL
  | PHOTO
deriving DecidableEq

/-- `OrnamentData` (src/types.ts): `rotation` is the Euler triple. -/
structure OrnamentData where
  id : String
  type : OrnamentType
  textureUrl : Option String
  positionTree : Vec3
  positionScatter : Vec3
  rotation : Vec3
  scale : ℝ
  color : String

/-- Default record used for total indexing into ornament lists. -/
def ornDefault : OrnamentData :=
  ⟨"", OrnamentType.GEM, none, vzero, vzero, vzero, 0, ""⟩

instance : Inhabited OrnamentData := ⟨ornDefault⟩

/-- constants.ts -/
def TREE_HEIGHT : ℝ := 15

/-- constants.ts -/
def TREE_RADIUS_BASE : ℝ := 6.5

/-- constants.ts -/
def ORNAMENT_COUNT : ℕ := 350

/-- constants.ts COLORS.GOLD_PURE -/
def GOLD_PURE : String := "#FFD700"

/-- constants.ts COLORS.GOLD_CHAMPAGNE -/
def GOLD_CHAMPAGNE : String := "#F7E7CE"

/-- constants.ts COLORS.MATTE_BLACK -/
def MATTE_BLACK : String := "#1A1A1A"

/-- constants.ts COLORS.RICH_RED -/
def RICH_RED : String := "#C70039"

/-- constants.ts COLORS.DEEP_GREEN -/
def DEEP_GREEN : String := "#003300"

/-- The weighted colour picker of the generator, applied to one
`Math.random()` draw `r`. -/
def getLuxuryColor (r : ℝ) : String :=
  if r > 0.60 then GOLD_PURE
  else if r > 0.45 then GOLD_CHAMPAGNE
  else if r > 0.35 then MATTE_BLACK
  else if r > 0.15 then RICH_RED
  else DEEP_GREEN

/-- The photo branch of the `ornaments` generator (TreeScene), for photo
index `i` of `P` photos with texture `url`.  The scatter position consumes
the random draws `rng (3*i) … rng (3*i+2)` (3 calls per photo, in source
order). -/
def mkPhoto (rng : ℕ → ℝ) (P i : ℕ) (url : String) : OrnamentData :=
  let goldenAngle : ℝ := Real.pi * (3 - Real.sqrt 5)
  let t : ℝ := (i + 1) / (P + 1)
  let y : ℝ := t * TREE_HEIGHT * 0.7 - TREE_HEIGHT * 0.35
  let r : ℝ := ((TREE_HEIGHT / 2) - y) / TREE_HEIGHT * TREE_RADIUS_BASE * 1.2
  let theta : ℝ := i * goldenAngle * 8 + Real.pi
  { id := "photo-" ++ toString i
    type := OrnamentType.PHOTO
    textureUrl := some url
    positionTree := ⟨Real.cos theta * r, y, Real.sin theta * r⟩
    positionScatter := ⟨(rng (3 * i) - 0.5) * 35, (rng (3 * i + 1) - 0.5) * 20,
      (rng (3 * i + 2) - 0.5) * 10⟩
    rotation := ⟨0, -theta - Real.pi / 2, 0⟩
    scale := 1
    color := GOLD_PURE }

/-- The decoration branch of the `ornaments` generator for decoration
index `i` of `N`, after `P` photos.  One loop iteration consumes 10
random draws at stream positions `3*P + 10*i + 0 … 9`, in source order:
radius, sub-kind, colour, scatter x y z, Euler x y z, scale. -/
def mkDecoration (rng : ℕ → ℝ) (P N i : ℕ) : OrnamentData :=
  let base : ℕ := 3 * P + 10 * i
  let yNorm : ℝ := (i : ℝ) / (N : ℝ)
  let y : ℝ := yNorm * TREE_HEIGHT - TREE_HEIGHT / 2
  let radiusAtHeight : ℝ := ((TREE_HEIGHT / 2) - y) / TREE_HEIGHT * TREE_RADIUS_BASE
  let goldenAngle : ℝ := Real.pi * (3 - Real.sqrt 5)
  let theta : ℝ := i * goldenAngle
  let r : ℝ := radiusAtHeight * Real.sqrt (rng base * 0.3 + 0.7)
  { id := "ornament-" ++ toString i
    type := if rng (base + 1) > 0.4 then OrnamentType.GEM else OrnamentType.PEARL
    textureUrl := none
    positionTree := ⟨Real.cos theta * r, y, Real.sin theta * r⟩
    positionScatter := ⟨(rng (base + 3) - 0.5) * 50, (rng (base + 4) - 0.5) * 35,
      (rng (base + 5) - 0.5) * 25⟩
    rotation := ⟨rng (base + 6) * Real.pi, rng (base + 7) * Real.pi,
      rng (base + 8) * Real.pi⟩
    scale := rng (base + 9) * 0.3 + 0.1
    color := getLuxuryColor (rng (base + 2)) }

/-- The `ornaments` list generator of TreeScene, with the decoration
count `N` as a parameter (the source runs it at `N = ORNAMENT_COUNT`):
photos first (one per user image, `forEach` with index), then `N`
decorations (`for` loop). -/
def ornamentsN (rng : ℕ → ℝ) (N : ℕ) (userImages : List String) :
    List OrnamentData :=
  List.mapIdx (fun i url => mkPhoto rng userImages.length i url) userImages ++
    (List.range N).map (fun i => mkDecoration rng userImages.length N i)

/-- The generator exactly as the source runs it. -/
def ornaments (rng : ℕ → ℝ) (userImages : List String) : List OrnamentData :=
  ornamentsN rng ORNAMENT_COUNT userImages

/-- The photo-index list of the focus-selection effect:
`ornaments.map((o, i) => o.type === PHOTO ? i : -1).filter(i => i !== -1)`. -/
def photoIndices (os : List OrnamentData) : List ℤ :=
  (List.mapIdx (fun i o =>
    if o.type = OrnamentType.PHOTO then (i : ℤ) else -1) os).filter
      (fun x => x ≠ -1)

/-- The body of the focus-selection `useEffect` (TreeScene): when the mode
is FOCUS and at least one user image exists, pick
`photoIndices[Math.floor(rand * photoIndices.length)]` and store it;
otherwise leave the stored focused index unchanged. -/
def focusEffect (mode : AppMode) (imagesLen : ℕ) (os : List OrnamentData)
    (rand : ℝ) (fi : ℤ) : ℤ :=
  if mode = AppMode.FOCUS ∧ 0 < imagesLen then
    let pis := photoIndices os
    if 0 < pis.length then pis.getD (Int.floor (rand * pis.length)).toNat 0
    else fi
  else fi

/-- React semantics of the effect with dependency list
`[mode, userImages.length]`: the body runs exactly when the dependency
pair changed since the previous render. -/
def focusStep (prevDeps deps : AppMode × ℕ) (os : List OrnamentData)
    (rand : ℝ) (fi : ℤ) : ℤ :=
  if deps = prevDeps then fi else focusEffect deps.1 deps.2 os rand fi

/-- The highlight condition of the per-frame loop: the FOCUS-mode branch
that camera-locks a particle fires only for a PHOTO particle whose index
is the stored focused index. -/
def isFocusHighlighted (mode : AppMode) (focusedIndex : ℤ) (i : ℕ)
    (data : OrnamentData) : Prop :=
  mode = AppMode.FOCUS ∧ data.type = OrnamentType.PHOTO ∧ (i : ℤ) = focusedIndex

instance (mode : AppMode) (focusedIndex : ℤ) (i : ℕ) (data : OrnamentData) :
    Decidable (isFocusHighlighted mode focusedIndex i data) := by
  unfold isFocusHighlighted; infer_instance

/-- Target computation of the per-frame loop (`useFrame` in TreeScene) for
particle `i`, returning `(targetPos, targetScale, data)` where the last
component is the particle record after the frame: the SCATTER branch
executes `targetPos.y += Math.sin(t * 0.5 + positionScatter.x) * 0.05` on
the stored `positionScatter` vector itself (`targetPos` is a reference,
not a copy), so the stored record changes.  The camera-relative local
target of the FOCUS branch is abstracted as the parameter `camTarget`
(the source computes it from the camera pose and the inverse group
matrix, both external to the core). -/
def computeTarget (mode : AppMode) (focusedIndex : ℤ) (camTarget : Vec3)
    (t : ℝ) (i : ℕ) (data : OrnamentData) : Vec3 × Vec3 × OrnamentData :=
  match mode with
  | AppMode.TREE =>
    (data.positionTree, ⟨data.scale, data.scale, data.scale⟩, data)
  | AppMode.SCATTER =>
    let newScatter : Vec3 :=
      ⟨data.positionScatter.x,
       data.positionScatter.y +
         Real.sin (t * 0.5 + data.positionScatter.x) * 0.05,
       data.positionScatter.z⟩
    (newScatter, ⟨data.scale, data.scale, data.scale⟩,
     { data with positionScatter := newScatter })
  | AppMode.FOCUS =>
    if data.type = OrnamentType.PHOTO ∧ (i : ℤ) = focusedIndex then
      (camTarget, ⟨4, 4, 4⟩, data)
    else
      (data.positionScatter, ⟨data.scale, data.scale, data.scale⟩, data)

/-- Per-frame render state of one particle (`child.position`,
`child.scale`). -/
structure RenderState where
  position : Vec3
  scaleV : Vec3

/-- One frame of the animation driver for one particle: compute the
target, then lerp position and scale toward it with factor
`delta * (FOCUS ? 4 : 2)`.  Returns the (possibly mutated) particle
record together with the new render state. -/
def frameStep (mode : AppMode) (focusedIndex : ℤ) (camTarget : Vec3)
    (t delta : ℝ) (i : ℕ) (data : OrnamentData) (rs : RenderState) :
    OrnamentData × RenderState :=
  let tgt := computeTarget mode focusedIndex camTarget t i data
  let lerpFactor : ℝ := if mode = AppMode.FOCUS then 4 else 2
  (tgt.2.2,
   { position := rs.position.lerp tgt.1 (delta * lerpFactor)
     scaleV := rs.scaleV.lerp tgt.2.1 (delta * lerpFactor) })

/-- `n` repeated frames of the driver on one particle, with fixed mode,
time and delta. -/
def frameIter (mode : AppMode) (focusedIndex : ℤ) (camTarget : Vec3)
    (t delta : ℝ) (i : ℕ) : ℕ → OrnamentData × RenderState →
      OrnamentData × RenderState
  | 0, s => s
  | n + 1, s =>
    let s2 := frameIter mode focusedIndex camTarget t delta i n s
    frameStep mode focusedIndex camTarget t delta i s2.1 s2.2

lemma dist3_nonneg (p q : Vec3) : 0 ≤ dist3 p q := Real.sqrt_nonneg _

lemma dist3_eq_zero_iff (p q : Vec3) : dist3 p q = 0 ↔ p = q := by
  unfold dist3
  rw [Real.sqrt_eq_zero (by positivity)]
  constructor
  · intro h
    have hx : (p.x - q.x) ^ 2 = 0 := by nlinarith [sq_nonneg (p.x - q.x), sq_nonneg (p.y - q.y), sq_nonneg (p.z - q.z)]
    have hy : (p.y - q.y) ^ 2 = 0 := by nlinarith [sq_nonneg (p.x - q.x), sq_nonneg (p.y - q.y), sq_nonneg (p.z - q.z)]
    have hz : (p.z - q.z) ^ 2 = 0 := by nlinarith [sq_nonneg (p.x - q.x), sq_nonneg (p.y - q.y), sq_nonneg (p.z - q.z)]
    ext
    · nlinarith [sq_nonneg (p.x - q.x)]
    · nlinarith [sq_nonneg (p.y - q.y)]
    · nlinarith [sq_nonneg (p.z - q.z)]
  · intro h
    subst h
    simp

/-- One lerp step scales the distance to the target by `|1 - a|`. -/
lemma dist3_lerp (p q : Vec3) (a : ℝ) :
    dist3 (p.lerp q a) q = |1 - a| * dist3 p q := by
  unfold dist3 Vec3.lerp
  have harg : (p.x + (q.x - p.x) * a - q.x) ^ 2 + (p.y + (q.y - p.y) * a - q.y) ^ 2 +
      (p.z + (q.z - p.z) * a - q.z) ^ 2 =
      (1 - a) ^ 2 * ((p.x - q.x) ^ 2 + (p.y - q.y) ^ 2 + (p.z - q.z) ^ 2) := by
    ring
  rw [harg, Real.sqrt_mul (sq_nonneg _), Real.sqrt_sq_eq_abs]

lemma dist3_lt_dist3_iff (p q u v : Vec3) :
    dist3 p q < dist3 u v ↔
      (p.x - q.x) ^ 2 + (p.y - q.y) ^ 2 + (p.z - q.z) ^ 2 <
        (u.x - v.x) ^ 2 + (u.y - v.y) ^ 2 + (u.z - v.z) ^ 2 := by
  unfold dist3
  constructor
  · intro h
    by_contra hle
    push_neg at hle
    exact absurd (Real.sqrt_le_sqrt hle) (not_le.mpr h)
  · intro h
    exact Real.sqrt_lt_sqrt (by positivity) h

lemma dist3_lt_const (p q : Vec3) (c : ℝ) (hc : 0 < c) :
    dist3 p q < c ↔
      (p.x - q.x) ^ 2 + (p.y - q.y) ^ 2 + (p.z - q.z) ^ 2 < c ^ 2 :=
  Real.sqrt_lt' hc

/-- Any classifier result on a nonempty landmark list is not `NONE`. -/
lemma classify_cons_ne_none (lm : List Vec3) (rest : List (List Vec3))
    (g : Gesture) (r : ℝ)
    (hsome : classifyGesture (lm :: rest) = some (g, r)) :
    g ≠ Gesture.NONE := by
  unfold classifyGesture at hsome
  repeat' split at hsome
  all_goals
    first
    | (rw [Option.some.injEq, Prod.mk.injEq] at hsome
       obtain ⟨h1, h2⟩ := hsome
       subst h1
       decide)
    | simp_all

/-- Claim C5: the mode state machine starts in `Aggregated` (TREE);
`ClosedFist → Aggregated`, `OpenPalm → Scattered`, `Pinch → Focused`, a
`None` result keeps the current mode; the trace OpenPalm, None, OpenPalm
from the initial mode ends in Scattered; and re-receiving the gesture of
the current mode is a no-op. -/
theorem C5_state_machine :
    appModeInit = AppMode.TREE ∧
    (∀ m, handleGesture Gesture.CLOSED_FIST m = AppMode.TREE) ∧
    (∀ m, handleGesture Gesture.OPEN_PALM m = AppMode.SCATTER) ∧
    (∀ m, handleGesture Gesture.PINCH m = AppMode.FOCUS) ∧
    (∀ m, handleGesture Gesture.NONE m = m) ∧
    runGestures [Gesture.OPEN_PALM, Gesture.NONE, Gesture.OPEN_PALM] =
      AppMode.SCATTER ∧
    handleGesture Gesture.CLOSED_FIST AppMode.TREE = AppMode.TREE ∧
    handleGesture Gesture.OPEN_PALM AppMode.SCATTER = AppMode.SCATTER ∧
    handleGesture Gesture.PINCH AppMode.FOCUS = AppMode.FOCUS :=
  ⟨rfl, fun _ => rfl, fun _ => rfl, fun _ => rfl, fun _ => rfl, rfl, rfl,
    rfl, rfl⟩

/-- Claim C2 (failing run): a present hand with a single landmark makes
`classifyGesture` dereference the missing landmark 17 and throw
(modelled as `none`), instead of returning the absent-hand result that
the empty observation gets. -/
theorem C2_short_hand_throws :
    classifyGesture [[vzero]] = none ∧
    classifyGesture [] = some (Gesture.NONE, 0) :=
  ⟨rfl, rfl⟩

/-- Claim C10: `classifyGesture` returns label `NONE` exactly on the
empty observation, and a hand with a full 21-landmark set always yields
one of the three non-`NONE` labels. -/
theorem C10_none_iff_empty (lms : List (List Vec3)) :
    classifyGesture ([] : List (List Vec3)) = some (Gesture.NONE, 0) ∧
    (∀ g r, classifyGesture lms = some (g, r) → (g = Gesture.NONE ↔ lms = [])) ∧
    (∀ lm rest, lms = lm :: rest → 21 ≤ lm.length →
      ∃ g r, classifyGesture lms = some (g, r) ∧ g ≠ Gesture.NONE) := by
  refine ⟨rfl, ?_, ?_⟩
  · intro g r hsome
    cases lms with
    | nil =>
      have h0 : classifyGesture ([] : List (List Vec3)) =
          some (Gesture.NONE, 0) := rfl
      rw [h0] at hsome
      have h1 := congrArg Prod.fst (Option.some.inj hsome)
      simpa using h1.symm
    | cons lm rest =>
      simp only [List.cons_ne_nil, iff_false]
      exact classify_cons_ne_none lm rest g r hsome
  · intro lm rest hl hlen
    subst hl
    refine ⟨_, handTilt lm, classifyGesture_full lm rest hlen, ?_⟩
    split
    · decide
    · split <;> decide

/-- Witness for C10 at a concrete full hand. -/
theorem C10_witness :
    ∃ g r, classifyGesture [List.replicate 21 vzero] = some (g, r) ∧
      g ≠ Gesture.NONE :=
  (C10_none_iff_empty [List.replicate 21 vzero]).2.2
    (List.replicate 21 vzero) [] rfl (by simp)

/-- Claim C6: on a full 21-landmark hand the classifier applies its rules
in strict priority order: pinch distance below 0.05 yields `PINCH`
regardless of the fold count, otherwise at least 3 folded fingers yields
`CLOSED_FIST`, otherwise `OPEN_PALM`. -/
theorem C6_priority (lm : List Vec3) (h : 21 ≤ lm.length) :
    classifyGesture [lm] =
      some (if pinchDistance lm < 0.05 then Gesture.PINCH
            else if 3 ≤ foldedCountOf lm then Gesture.CLOSED_FIST
            else Gesture.OPEN_PALM, handTilt lm) ∧
    (pinchDistance lm < 0.05 → 3 ≤ foldedCountOf lm →
      (classifyGesture [lm]).map Prod.fst = some Gesture.PINCH) := by
  refine ⟨classifyGesture_full lm [] h, ?_⟩
  intro h1 _
  rw [classifyGesture_full lm [] h]
  simp [h1]

/-- A concrete full hand that satisfies the pinch threshold and has all
four fingers folded at once. -/
def handPinchFist : List Vec3 :=
  [⟨0,0,0⟩, ⟨1,0,0⟩, ⟨1,0,0⟩, ⟨1,0,0⟩, ⟨1,0,0⟩, ⟨2,0,0⟩, ⟨1,0,0⟩, ⟨1,0,0⟩,
   ⟨1,0,0⟩, ⟨2,0,0⟩, ⟨1,0,0⟩, ⟨1,0,0⟩, ⟨1,0,0⟩, ⟨2,0,0⟩, ⟨1,0,0⟩, ⟨1,0,0⟩,
   ⟨1,0,0⟩, ⟨2,0,0⟩, ⟨1,0,0⟩, ⟨1,0,0⟩, ⟨1,0,0⟩]

/-- Witness for C6: the concrete hand satisfies both the pinch threshold
and the fold-count condition, and classifies as `PINCH`. -/
theorem C6_witness :
    pinchDistance handPinchFist < 0.05 ∧ 3 ≤ foldedCountOf handPinchFist ∧
    (classifyGesture [handPinchFist]).map Prod.fst = some Gesture.PINCH := by
  have hp : pinchDistance handPinchFist < 0.05 := by
    have e1 : handPinchFist.getD 4 vzero = ⟨1,0,0⟩ := rfl
    have e2 : handPinchFist.getD 8 vzero = ⟨1,0,0⟩ := rfl
    rw [pinchDistance, e1, e2, dist3_lt_const _ _ _ (by norm_num)]
    norm_num
  have hf : 3 ≤ foldedCountOf handPinchFist := by
    have hfold : dist3 ⟨1,0,0⟩ ⟨0,0,0⟩ < dist3 ⟨2,0,0⟩ ⟨0,0,0⟩ := by
      rw [dist3_lt_dist3_iff]
      norm_num
    have e0 : handPinchFist.getD 0 vzero = ⟨0,0,0⟩ := rfl
    have e8 : handPinchFist.getD 8 vzero = ⟨1,0,0⟩ := rfl
    have e12 : handPinchFist.getD 12 vzero = ⟨1,0,0⟩ := rfl
    have e16 : handPinchFist.getD 16 vzero = ⟨1,0,0⟩ := rfl
    have e20 : handPinchFist.getD 20 vzero = ⟨1,0,0⟩ := rfl
    have e5 : handPinchFist.getD 5 vzero = ⟨2,0,0⟩ := rfl
    have e9 : handPinchFist.getD 9 vzero = ⟨2,0,0⟩ := rfl
    have e13 : handPinchFist.getD 13 vzero = ⟨2,0,0⟩ := rfl
    have e17 : handPinchFist.getD 17 vzero = ⟨2,0,0⟩ := rfl
    rw [foldedCountOf, e0, e8, e12, e16, e20, e5, e9, e13, e17, foldedCount]
    rw [if_pos hfold]
    omega
  exact ⟨hp, hf, (C6_priority handPinchFist (by simp [handPinchFist])).2 hp hf⟩

/-- A concrete decoration particle whose scattered base position is the
origin. -/
def gemAtOrigin : OrnamentData :=
  ⟨"ornament-0", OrnamentType.GEM, none, vzero, vzero, vzero, 1, GOLD_PURE⟩

/-- A concrete render state one unit away from the origin. -/
def rsUnit : RenderState := ⟨⟨1, 0, 0⟩, ⟨1, 1, 1⟩⟩

/-- Claim C1 (failing run): one SCATTER frame at elapsed time π adds the
oscillation into the stored scattered base position itself — afterwards
the stored `positionScatter.y` is 0.05, no longer its generation value 0,
because `targetPos` aliases the stored vector instead of a copy. -/
theorem C1_scatter_mutates_base :
    (frameStep AppMode.SCATTER 0 vzero Real.pi (1/60) 0 gemAtOrigin
        rsUnit).1.positionScatter ≠ gemAtOrigin.positionScatter ∧
    (frameStep AppMode.SCATTER 0 vzero Real.pi (1/60) 0 gemAtOrigin
        rsUnit).1.positionScatter.y = 0.05 := by
  have hsin : Real.sin (Real.pi * 0.5 + 0) = 1 := by
    rw [show Real.pi * 0.5 + 0 = Real.pi / 2 by ring]
    exact Real.sin_pi_div_two
  have hy : (frameStep AppMode.SCATTER 0 vzero Real.pi (1/60) 0 gemAtOrigin
      rsUnit).1.positionScatter.y = 0.05 := by
    simp only [frameStep, computeTarget, gemAtOrigin, vzero]
    simp only [hsin]
    norm_num
  refine ⟨?_, hy⟩
  intro hEq
  have hyy := congrArg Vec3.y hEq
  rw [hy] at hyy
  have : gemAtOrigin.positionScatter.y = 0 := rfl
  rw [this] at hyy
  norm_num at hyy

/-- Claim C7 (counterexample): with no photo particle, a FOCUS frame does
not assign the same target position as a SCATTER frame would — the
SCATTER target carries the vertical oscillation, the FOCUS target is the
bare scattered base position. -/
theorem C7_counterexample :
    (computeTarget AppMode.SCATTER 0 vzero Real.pi 0 gemAtOrigin).1 ≠
      (computeTarget AppMode.FOCUS 0 vzero Real.pi 0 gemAtOrigin).1 := by
  have hsin : Real.sin (Real.pi * 0.5 + 0) = 1 := by
    rw [show Real.pi * 0.5 + 0 = Real.pi / 2 by ring]
    exact Real.sin_pi_div_two
  have hs : (computeTarget AppMode.SCATTER 0 vzero Real.pi 0 gemAtOrigin).1.y
      = 0.05 := by
    simp only [computeTarget, gemAtOrigin, vzero]
    simp only [hsin]
    norm_num
  have hf : (computeTarget AppMode.FOCUS 0 vzero Real.pi 0 gemAtOrigin).1.y
      = 0 := by
    have hc : ¬ (gemAtOrigin.type = OrnamentType.PHOTO ∧ ((0:ℕ) : ℤ) = 0) := by
      intro hcc
      exact absurd hcc.1 (by decide)
    simp only [computeTarget, if_neg hc]
    rfl
  intro hEq
  have := congrArg Vec3.y hEq
  rw [hs, hf] at this
  norm_num at this

/-- Claim C7 (amended): in FOCUS mode a particle that is not a photo gets
the bare scattered base position as target (without the SCATTER-mode
oscillation), the same target scale as in SCATTER mode, its stored record
is not mutated, it is never highlighted or camera-locked, and its
position lerps toward the scattered base position with factor
`delta * 4`. -/
theorem C7_focus_no_photos (fi : ℤ) (cam : Vec3) (t delta : ℝ) (i : ℕ)
    (data : OrnamentData) (rs : RenderState)
    (h : data.type ≠ OrnamentType.PHOTO) :
    (computeTarget AppMode.FOCUS fi cam t i data).1 = data.positionScatter ∧
    (computeTarget AppMode.FOCUS fi cam t i data).2.1 =
      (computeTarget AppMode.SCATTER fi cam t i data).2.1 ∧
    (computeTarget AppMode.FOCUS fi cam t i data).2.2 = data ∧
    ¬ isFocusHighlighted AppMode.FOCUS fi i data ∧
    (frameStep AppMode.FOCUS fi cam t delta i data rs).2.position =
      rs.position.lerp data.positionScatter (delta * 4) := by
  have hc : ¬ (data.type = OrnamentType.PHOTO ∧ (i : ℤ) = fi) :=
    fun hcc => h hcc.1
  refine ⟨?_, ?_, ?_, ?_, ?_⟩
  · simp [computeTarget, hc]
  · simp [computeTarget, hc]
  · simp [computeTarget, hc]
  · intro hh
    exact h hh.2.1
  · simp [frameStep, computeTarget, hc]

/-- Witness for C7 at a concrete non-photo particle. -/
theorem C7_witness :
    (computeTarget AppMode.FOCUS 0 vzero 0 0 gemAtOrigin).1 =
      gemAtOrigin.positionScatter ∧
    ¬ isFocusHighlighted AppMode.FOCUS 0 0 gemAtOrigin := by
  have h := C7_focus_no_photos 0 vzero 0 0 0 gemAtOrigin rsUnit (by decide)
  exact ⟨h.1, h.2.2.2.1⟩

lemma frameIter_tree_data (fi : ℤ) (cam : Vec3) (t delta : ℝ) (i : ℕ)
    (data : OrnamentData) (rs : RenderState) (n : ℕ) :
    (frameIter AppMode.TREE fi cam t delta i n (data, rs)).1 = data := by
  induction n with
  | zero => rfl
  | succ k ih =>
    simp only [frameIter, frameStep, computeTarget]
    exact ih

lemma frameIter_tree_dist (fi : ℤ) (cam : Vec3) (t delta : ℝ) (i : ℕ)
    (data : OrnamentData) (rs : RenderState) (n : ℕ) :
    dist3 ((frameIter AppMode.TREE fi cam t delta i n (data, rs)).2.position)
        data.positionTree =
      |1 - delta * 2| ^ n * dist3 rs.position data.positionTree := by
  induction n with
  | zero => simp [frameIter]
  | succ k ih =>
    have hdata := frameIter_tree_data fi cam t delta i data rs k
    simp only [frameIter, frameStep, computeTarget]
    rw [show (if AppMode.TREE = AppMode.FOCUS then (4:ℝ) else 2) = 2 from rfl]
    rw [hdata, dist3_lerp, ih, pow_succ]
    ring

/-- Claim C8: under repeated TREE-mode frames with delta = 1/60 and rate
2 the distance to the fixed target scales by 29/30 each frame, hence
strictly decreases while nonzero, the target is never reached exactly in
finitely many frames, and the distance falls below 1e-3 from some frame
count on. -/
theorem C8_convergence (fi : ℤ) (cam : Vec3) (t : ℝ) (i : ℕ)
    (data : OrnamentData) (rs : RenderState)
    (h : rs.position ≠ data.positionTree) :
    (∀ n, dist3 ((frameIter AppMode.TREE fi cam t (1/60) i n
          (data, rs)).2.position) data.positionTree =
        (29/30) ^ n * dist3 rs.position data.positionTree) ∧
    (∀ n, dist3 ((frameIter AppMode.TREE fi cam t (1/60) i (n + 1)
          (data, rs)).2.position) data.positionTree <
        dist3 ((frameIter AppMode.TREE fi cam t (1/60) i n
          (data, rs)).2.position) data.positionTree) ∧
    (∀ n, (frameIter AppMode.TREE fi cam t (1/60) i n
          (data, rs)).2.position ≠ data.positionTree) ∧
    (∃ N, ∀ n, N ≤ n →
      dist3 ((frameIter AppMode.TREE fi cam t (1/60) i n
          (data, rs)).2.position) data.positionTree < 1/1000) := by
  have habs : |1 - (1/60 : ℝ) * 2| = 29/30 := by
    rw [abs_of_nonneg (by norm_num)]
    norm_num
  have hform : ∀ n, dist3 ((frameIter AppMode.TREE fi cam t (1/60) i n
      (data, rs)).2.position) data.positionTree =
      (29/30) ^ n * dist3 rs.position data.positionTree := by
    intro n
    rw [frameIter_tree_dist, habs]
  have hd0 : 0 < dist3 rs.position data.positionTree := by
    rcases lt_or_eq_of_le (dist3_nonneg rs.position data.positionTree) with hlt | heq
    · exact hlt
    · exact absurd ((dist3_eq_zero_iff rs.position data.positionTree).mp heq.symm) h
  refine ⟨hform, ?_, ?_, ?_⟩
  · intro n
    rw [hform, hform, pow_succ]
    have : (29/30 : ℝ) ^ n * (29/30) < (29/30) ^ n * 1 := by
      apply mul_lt_mul_of_pos_left (by norm_num)
      positivity
    nlinarith [hd0, this]
  · intro n hEq
    have := hform n
    rw [(dist3_eq_zero_iff _ _).mpr hEq] at this
    have hpos : 0 < (29/30 : ℝ) ^ n * dist3 rs.position data.positionTree := by
      positivity
    rw [← this] at hpos
    exact lt_irrefl 0 hpos
  · obtain ⟨N, hN⟩ := exists_pow_lt_of_lt_one
      (show 0 < (1/1000 : ℝ) / dist3 rs.position data.positionTree by positivity)
      (show (29/30 : ℝ) < 1 by norm_num)
    refine ⟨N, fun n hn => ?_⟩
    rw [hform]
    have hle : (29/30 : ℝ) ^ n ≤ (29/30) ^ N :=
      pow_le_pow_of_le_one (by norm_num) (by norm_num) hn
    have hlt : (29/30 : ℝ) ^ N * dist3 rs.position data.positionTree < 1/1000 := by
      rw [← lt_div_iff₀ hd0]
      exact hN
    calc (29/30 : ℝ) ^ n * dist3 rs.position data.positionTree
        ≤ (29/30) ^ N * dist3 rs.position data.positionTree := by
          apply mul_le_mul_of_nonneg_right hle (le_of_lt hd0)
      _ < 1/1000 := hlt

/-- Witness for C8: from one unit away the first frame strictly reduces
the distance to the aggregated target. -/
theorem C8_witness :
    dist3 ((frameIter AppMode.TREE 0 vzero 0 (1/60) 0 1
        (gemAtOrigin, rsUnit)).2.position) gemAtOrigin.positionTree <
      dist3 ((frameIter AppMode.TREE 0 vzero 0 (1/60) 0 0
        (gemAtOrigin, rsUnit)).2.position) gemAtOrigin.positionTree := by
  have hne : rsUnit.position ≠ gemAtOrigin.positionTree := by
    intro hEq
    have hx := congrArg Vec3.x hEq
    have h1 : rsUnit.position.x = 1 := rfl
    have h0 : gemAtOrigin.positionTree.x = 0 := rfl
    rw [h1, h0] at hx
    norm_num at hx
  exact (C8_convergence 0 vzero 0 0 gemAtOrigin rsUnit hne).2.1 0

lemma ornamentsN_length (rng : ℕ → ℝ) (N : ℕ) (imgs : List String) :
    (ornamentsN rng N imgs).length = imgs.length + N := by
  unfold ornamentsN
  rw [List.length_append, List.length_mapIdx, List.length_map,
    List.length_range]

lemma ornamentsN_getD_photo (rng : ℕ → ℝ) (N : ℕ) (imgs : List String)
    (k : ℕ) (hk : k < imgs.length) :
    (ornamentsN rng N imgs).getD k ornDefault =
      mkPhoto rng imgs.length k (imgs.getD k "") := by
  unfold ornamentsN
  rw [List.getD_eq_getElem?_getD,
    List.getElem?_append_left (by simpa [List.length_mapIdx] using hk),
    List.getElem?_eq_getElem (by simpa [List.length_mapIdx] using hk)]
  rw [Option.getD_some, List.getElem_mapIdx]
  congr 1
  rw [List.getD_eq_getElem?_getD, List.getElem?_eq_getElem hk]
  rfl

lemma ornamentsN_getD_dec (rng : ℕ → ℝ) (N : ℕ) (imgs : List String)
    (k : ℕ) (hk : imgs.length ≤ k) (hk2 : k < imgs.length + N) :
    (ornamentsN rng N imgs).getD k ornDefault =
      mkDecoration rng imgs.length N (k - imgs.length) := by
  unfold ornamentsN
  rw [List.getD_eq_getElem?_getD,
    List.getElem?_append_right (by simpa [List.length_mapIdx] using hk)]
  rw [List.length_mapIdx, List.getElem?_map,
    List.getElem?_range (by omega)]
  rfl

lemma mkPhoto_y_band (rng : ℕ → ℝ) (P k : ℕ) (url : String)
    (hk : k < P) :
    -(0.35 * TREE_HEIGHT) < (mkPhoto rng P k url).positionTree.y ∧
      (mkPhoto rng P k url).positionTree.y < 0.35 * TREE_HEIGHT := by
  have hP : (0:ℝ) < (P:ℝ) + 1 := by positivity
  have ht0 : (0:ℝ) < ((k:ℝ) + 1) / ((P:ℝ) + 1) := by positivity
  have ht1 : ((k:ℝ) + 1) / ((P:ℝ) + 1) < 1 := by
    rw [div_lt_one hP]
    have : (k:ℝ) < (P:ℝ) := by exact_mod_cast hk
    linarith
  have hy : (mkPhoto rng P k url).positionTree.y =
      ((k:ℝ) + 1) / ((P:ℝ) + 1) * TREE_HEIGHT * 0.7 - TREE_HEIGHT * 0.35 := by
    simp [mkPhoto]
  rw [hy]
  unfold TREE_HEIGHT
  constructor <;> nlinarith [ht0, ht1]

/-- Claim C9: for every decoration count N and photo list, the generator
returns exactly `P + N` records, exactly `P` of kind PHOTO; the photo
slots occupy the first `P` positions and the decorations the rest; and
every photo slot's aggregated height lies strictly inside the band
`(-0.35·TREE_HEIGHT, 0.35·TREE_HEIGHT)`. -/
theorem C9_shape (rng : ℕ → ℝ) (N : ℕ) (imgs : List String) :
    (ornamentsN rng N imgs).length = imgs.length + N ∧
    (ornamentsN rng N imgs).countP
      (fun o => decide (o.type = OrnamentType.PHOTO)) = imgs.length ∧
    (∀ k, k < imgs.length →
      ((ornamentsN rng N imgs).getD k ornDefault).type = OrnamentType.PHOTO ∧
      -(0.35 * TREE_HEIGHT) <
        ((ornamentsN rng N imgs).getD k ornDefault).positionTree.y ∧
      ((ornamentsN rng N imgs).getD k ornDefault).positionTree.y <
        0.35 * TREE_HEIGHT) ∧
    (∀ k, imgs.length ≤ k → k < imgs.length + N →
      ((ornamentsN rng N imgs).getD k ornDefault).type ≠
        OrnamentType.PHOTO) := by
  refine ⟨ornamentsN_length rng N imgs, ?_, ?_, ?_⟩
  · unfold ornamentsN
    rw [List.countP_append]
    have h1 : (List.mapIdx (fun i url => mkPhoto rng imgs.length i url)
        imgs).countP (fun o => decide (o.type = OrnamentType.PHOTO)) =
        imgs.length := by
      have hall : ∀ o ∈ List.mapIdx
          (fun i url => mkPhoto rng imgs.length i url) imgs,
          (fun o => decide (o.type = OrnamentType.PHOTO)) o = true := by
        intro o ho
        rw [List.mem_mapIdx] at ho
        obtain ⟨i, hi, hfo⟩ := ho
        rw [← hfo]
        simp [mkPhoto]
      rw [List.countP_eq_length.mpr hall, List.length_mapIdx]
    have h2 : ((List.range N).map
        (fun i => mkDecoration rng imgs.length N i)).countP
        (fun o => decide (o.type = OrnamentType.PHOTO)) = 0 := by
      rw [List.countP_eq_zero]
      intro o ho
      rw [List.mem_map] at ho
      obtain ⟨i, _, hfo⟩ := ho
      rw [← hfo]
      simp only [mkDecoration, decide_eq_true_eq]
      split <;> simp
    rw [h1, h2]
    omega
  · intro k hk
    rw [ornamentsN_getD_photo rng N imgs k hk]
    exact ⟨by simp [mkPhoto],
      (mkPhoto_y_band rng imgs.length k (imgs.getD k "") hk).1,
      (mkPhoto_y_band rng imgs.length k (imgs.getD k "") hk).2⟩
  · intro k hk hk2
    rw [ornamentsN_getD_dec rng N imgs k hk hk2]
    simp only [mkDecoration]
    split <;> simp

/-- Witness for C9 at one photo and one decoration. -/
theorem C9_witness :
    (ornamentsN (fun _ => 0) 1 ["a"]).length = 2 ∧
    ((ornamentsN (fun _ => 0) 1 ["a"]).getD 0 ornDefault).type =
      OrnamentType.PHOTO ∧
    ((ornamentsN (fun _ => 0) 1 ["a"]).getD 1 ornDefault).type ≠
      OrnamentType.PHOTO := by
  have h := C9_shape (fun _ => 0) 1 ["a"]
  refine ⟨by simpa using h.1, (h.2.2.1 0 (by norm_num)).1,
    h.2.2.2 1 (by norm_num) (by norm_num)⟩

/-- Claim C3 (counterexample): two generator runs over the same (empty)
photo list but different random streams give decoration 0 different
aggregated positions — the radial distance consumes a random draw, so
decoration placement is not a pure function of the index. -/
theorem C3_counterexample :
    ((ornamentsN (fun _ => 0) 1 []).getD 0 ornDefault).positionTree ≠
      ((ornamentsN (fun _ => 0.3) 1 []).getD 0 ornDefault).positionTree := by
  rw [ornamentsN_getD_dec (fun _ => 0) 1 [] 0 (by simp) (by simp),
    ornamentsN_getD_dec (fun _ => 0.3) 1 [] 0 (by simp) (by simp)]
  intro hEq
  have hx := congrArg Vec3.x hEq
  simp only [mkDecoration, List.length_nil, TREE_HEIGHT, TREE_RADIUS_BASE,
    Nat.sub_zero, Nat.cast_zero, Real.cos_zero] at hx
  norm_num at hx
  have h2 := congrArg (fun z : ℝ => z ^ 2) hx
  simp only [div_pow, Real.sq_sqrt (by norm_num : (0:ℝ) ≤ 7),
    Real.sq_sqrt (by norm_num : (0:ℝ) ≤ 10),
    Real.sq_sqrt (by norm_num : (0:ℝ) ≤ 79),
    Real.sq_sqrt (by norm_num : (0:ℝ) ≤ 100)] at h2
  norm_num at h2

/-- Claim C3 (amended): a decoration's aggregated height is a pure
function of its index, and its full aggregated position depends only on
the index, the shared constants and the single radius draw
`rng (3·P + 10·i)`: two runs over the same photo list whose radius draws
agree at decoration `i` place decoration `i` identically. -/
theorem C3_amended (r1 r2 : ℕ → ℝ) (imgs : List String) (N i : ℕ)
    (hi : i < N)
    (h : r1 (3 * imgs.length + 10 * i) = r2 (3 * imgs.length + 10 * i)) :
    ((ornamentsN r1 N imgs).getD (imgs.length + i)
        ornDefault).positionTree.y =
      ((ornamentsN r2 N imgs).getD (imgs.length + i)
        ornDefault).positionTree.y ∧
    ((ornamentsN r1 N imgs).getD (imgs.length + i)
        ornDefault).positionTree =
      ((ornamentsN r2 N imgs).getD (imgs.length + i)
        ornDefault).positionTree := by
  rw [ornamentsN_getD_dec r1 N imgs (imgs.length + i) (by omega) (by omega),
    ornamentsN_getD_dec r2 N imgs (imgs.length + i) (by omega) (by omega)]
  have hsub : imgs.length + i - imgs.length = i := by omega
  rw [hsub]
  constructor
  · simp [mkDecoration]
  · simp only [mkDecoration, h]

/-- Witness for C3 (amended claim) at two concrete streams agreeing on
the radius draw of decoration 0. -/
theorem C3_witness :
    ((ornamentsN (fun _ => 0) 1 []).getD 0 ornDefault).positionTree =
      ((ornamentsN (fun k => if k = 5 then 1/2 else 0) 1 []).getD 0
        ornDefault).positionTree := by
  have h := C3_amended (fun _ => 0) (fun k => if k = 5 then 1/2 else 0)
    [] 1 0 (by norm_num) (by norm_num)
  simpa using h.2

lemma photoIndices_mem (os : List OrnamentData) (x : ℤ) :
    x ∈ photoIndices os ↔
      ∃ i : ℕ, i < os.length ∧ x = i ∧
        (os.getD i ornDefault).type = OrnamentType.PHOTO := by
  unfold photoIndices
  rw [List.mem_filter]
  constructor
  · rintro ⟨hmem, hne⟩
    rw [List.mem_mapIdx] at hmem
    obtain ⟨i, hh, hfi⟩ := hmem
    by_cases hph : os[i].type = OrnamentType.PHOTO
    · refine ⟨i, hh, ?_, ?_⟩
      · rw [← hfi, if_pos hph]
      · rw [List.getD_eq_getElem?_getD, List.getElem?_eq_getElem hh,
          Option.getD_some]
        exact hph
    · exfalso
      rw [← hfi, if_neg hph] at hne
      simp at hne
  · rintro ⟨i, hh, hx, hph⟩
    rw [List.getD_eq_getElem?_getD, List.getElem?_eq_getElem hh,
      Option.getD_some] at hph
    constructor
    · rw [List.mem_mapIdx]
      exact ⟨i, hh, by rw [if_pos hph, hx]⟩
    · subst hx
      simp only [decide_eq_true_eq]
      omega

lemma focusEffect_pick (os : List OrnamentData) (n : ℕ) (r : ℝ) (fi : ℤ)
    (j : ℕ) (hn : 0 < n) (hj : j < (photoIndices os).length)
    (h1 : (j : ℝ) / (photoIndices os).length ≤ r)
    (h2 : r < ((j : ℝ) + 1) / (photoIndices os).length) :
    focusEffect AppMode.FOCUS n os r fi = (photoIndices os).getD j 0 := by
  have hlen : (0:ℝ) < ((photoIndices os).length : ℝ) := by
    have : 0 < (photoIndices os).length := by omega
    exact_mod_cast this
  have hfloor : Int.floor (r * ((photoIndices os).length : ℝ)) = (j : ℤ) := by
    rw [Int.floor_eq_iff]
    constructor
    · push_cast
      calc ((j:ℝ)) = (j:ℝ) / ((photoIndices os).length : ℝ) *
            ((photoIndices os).length : ℝ) := by
            field_simp
        _ ≤ r * ((photoIndices os).length : ℝ) := by
            apply mul_le_mul_of_nonneg_right h1 (le_of_lt hlen)
    · push_cast
      calc r * ((photoIndices os).length : ℝ)
          < ((j:ℝ) + 1) / ((photoIndices os).length : ℝ) *
            ((photoIndices os).length : ℝ) := by
            apply mul_lt_mul_of_pos_right h2 hlen
        _ = (j:ℝ) + 1 := by field_simp
  unfold focusEffect
  rw [if_pos ⟨rfl, hn⟩]
  rw [if_pos (by omega : 0 < (photoIndices os).length)]
  rw [hfloor, Int.toNat_ofNat]

/-- Claim C4: the focus-selection effect sets the stored index only when
a photo particle exists and only to a photo index; the pick is uniform
(the draw interval `[j/len, (j+1)/len)` selects slot `j` of the photo
index list); an unchanged dependency pair (staying in Focused mode over
frames) never re-runs the body, and a changed pair entering FOCUS re-runs
it with a fresh draw. -/
theorem C4_focus_selector (os : List OrnamentData) (n : ℕ) (r : ℝ)
    (fi : ℤ) (prev : AppMode × ℕ) :
    (∀ x : ℤ, x ∈ photoIndices os ↔ ∃ i : ℕ, i < os.length ∧ x = i ∧
        (os.getD i ornDefault).type = OrnamentType.PHOTO) ∧
    (photoIndices os = [] → focusEffect AppMode.FOCUS n os r fi = fi) ∧
    (∀ j : ℕ, 0 < n → j < (photoIndices os).length →
      (j : ℝ) / (photoIndices os).length ≤ r →
      r < ((j : ℝ) + 1) / (photoIndices os).length →
      focusEffect AppMode.FOCUS n os r fi = (photoIndices os).getD j 0 ∧
        (photoIndices os).getD j 0 ∈ photoIndices os) ∧
    focusStep prev prev os r fi = fi ∧
    (prev ≠ (AppMode.FOCUS, n) →
      focusStep prev (AppMode.FOCUS, n) os r fi =
        focusEffect AppMode.FOCUS n os r fi) := by
  refine ⟨photoIndices_mem os, ?_, ?_, ?_, ?_⟩
  · intro hnil
    unfold focusEffect
    rw [hnil]
    simp
  · intro j hn hj h1 h2
    refine ⟨focusEffect_pick os n r fi j hn hj h1 h2, ?_⟩
    rw [List.getD_eq_getElem?_getD, List.getElem?_eq_getElem hj]
    exact List.getElem_mem hj
  · unfold focusStep
    rw [if_pos rfl]
  · intro hne
    unfold focusStep
    rw [if_neg (fun hEq => hne hEq.symm)]

/-- A concrete photo particle. -/
def photoOrn : OrnamentData :=
  ⟨"photo-0", OrnamentType.PHOTO, some "a", vzero, vzero, vzero, 1,
    GOLD_PURE⟩

/-- Witness for C4 at a one-photo particle list. -/
theorem C4_witness :
    focusEffect AppMode.FOCUS 1 [photoOrn] 0 5 =
      (photoIndices [photoOrn]).getD 0 0 ∧
    focusStep (AppMode.TREE, 1) (AppMode.TREE, 1) [photoOrn] 0 5 = 5 := by
  have hpi : photoIndices [photoOrn] = [(0:ℤ)] := by
    simp [photoIndices, photoOrn]
  have h := C4_focus_selector [photoOrn] 1 0 5 (AppMode.TREE, 1)
  refine ⟨(h.2.2.1 0 (by norm_num) ?_ ?_ ?_).1, h.2.2.2.1⟩
  · rw [hpi]
    norm_num
  · rw [hpi]
    norm_num
  · rw [hpi]
    norm_num
